import Mathlib

/-!
Verification of the slide-rule cursor precision calculator
(`scale_precision_calculator.py`).

The source operates on exact decimal configuration values; we embed its
numbers as rationals (`ℚ`), its integer results as `ℤ`, absent interval
tiers as `Option.none`, and `math.floor(math.log10 _)` as `Int.log 10`
(the floor of the base-10 logarithm, exact on rationals).
-/

namespace ScalePrecision

/-- One subsection of a scale: its inclusive start value `beginsub` and its
ordered list of optional tick intervals (coarsest to finest). -/
structure Subsection where
  beginsub : ℚ
  intervals : List (Option ℚ)
  deriving DecidableEq

/-- The scale-definition dictionary consumed by the constructor:
`subsections`, `beginscale`, `endscale` and the optional `xfactor`. -/
structure ScaleDefinition where
  subsections : List Subsection
  beginscale : ℚ
  endscale : ℚ
  xfactor : Option ℚ
  deriving DecidableEq

/-- The calculator state after `__init__`: the (sorted) subsections and the
scale bounds, with `xfactor` defaulted to 100. -/
structure ScalePrecisionCalculator where
  subsections : List Subsection
  beginscale : ℚ
  endscale : ℚ
  xfactor : ℚ
  deriving DecidableEq

/-- The sort key relation used by `__init__`: compare subsections by
`beginsub` (the Python sort key is the `beginsub` entry). -/
def subLE (a b : Subsection) : Prop := a.beginsub ≤ b.beginsub

instance : DecidableRel subLE := fun a b =>
  inferInstanceAs (Decidable (a.beginsub ≤ b.beginsub))

instance : IsTotal Subsection subLE := ⟨fun a b => le_total a.beginsub b.beginsub⟩

instance : IsTrans Subsection subLE := ⟨fun _ _ _ h1 h2 => le_trans h1 h2⟩

/-- `__init__`: store the fields and sort the subsections by `beginsub`
ascending (Python `list.sort` is a stable sort; `insertionSort` is the
stable sort of the library). -/
def ScalePrecisionCalculator.init (scale_definition : ScaleDefinition) :
    ScalePrecisionCalculator where
  subsections := List.insertionSort subLE scale_definition.subsections
  beginscale := scale_definition.beginscale
  endscale := scale_definition.endscale
  xfactor := scale_definition.xfactor.getD 100

/-- `_find_active_subsection`: keep the last subsection with
`beginsub <= position`, stopping at the first subsection with
`beginsub > position` (the `break` in the Python loop). -/
def find_active_subsection : List Subsection → ℚ → Option Subsection
  | [], _ => none
  | s :: rest, position =>
    if s.beginsub ≤ position then
      match find_active_subsection rest position with
      | some t => some t
      | none => some s
    else
      none

/-- The scan inside `_get_smallest_interval`: first non-`None` element of a
list (the Python loop returns at the first non-null entry). -/
def firstSome : List (Option ℚ) → Option ℚ
  | [] => none
  | some v :: _ => some v
  | none :: rest => firstSome rest

/-- `_get_smallest_interval`: scan the intervals in reverse and return the
first non-absent one, or `none` when all are absent. -/
def get_smallest_interval (subsection : Subsection) : Option ℚ :=
  firstSome subsection.intervals.reverse

/-- `_interval_to_decimal_places`: 1 for intervals ≥ 1, otherwise
`-floor(log10 interval) + 1` clamped to `[1, 5]`. -/
def interval_to_decimal_places (interval : ℚ) : ℤ :=
  if 1 ≤ interval then 1
  else min (max (-(Int.log 10 interval) + 1) 1) 5

/-- `get_decimal_places`: default 2 out of bounds, when no subsection
matches, or when the active subsection has no interval; otherwise convert
the smallest interval of the active subsection. -/
def get_decimal_places (c : ScalePrecisionCalculator) (position : ℚ) : ℤ :=
  if position < c.beginscale ∨ c.endscale < position then 2
  else
    match find_active_subsection c.subsections position with
    | none => 2
    | some active_subsection =>
      match get_smallest_interval active_subsection with
      | none => 2
      | some smallest_interval => interval_to_decimal_places smallest_interval

/-- One decimal digit character, for `n` taken mod 10. -/
def digitChar (n : ℕ) : Char :=
  match n % 10 with
  | 0 => '0'
  | 1 => '1'
  | 2 => '2'
  | 3 => '3'
  | 4 => '4'
  | 5 => '5'
  | 6 => '6'
  | 7 => '7'
  | 8 => '8'
  | _ => '9'

/-- Big-endian decimal rendering of `n mod 10^d` as exactly `d` digit
characters (leading zeros kept). -/
def padDigits : ℕ → ℕ → List Char
  | _, 0 => []
  | n, d + 1 => padDigits (n / 10) d ++ [digitChar n]

/-- Modelled from the spec: round-half-to-even to an integer, the tie
rule of the fixed-point formatting facility of the host (the spec leaves
exact tie-breaking outside the contract). -/
def roundHalfEven (q : ℚ) : ℤ :=
  if q - ⌊q⌋ < 1 / 2 then ⌊q⌋
  else if 1 / 2 < q - ⌊q⌋ then ⌊q⌋ + 1
  else if ⌊q⌋ % 2 = 0 then ⌊q⌋ else ⌊q⌋ + 1

/-- Modelled from the spec: the standard fixed-point numeric formatting
of the host (a Python fixed-point format string), which is not part of
the repository: a sign for negative values, the integer digits, and —
when `d > 0` — a decimal point followed by exactly `d` fraction digits of
the rounding of `position * 10^d`. -/
def format_fixed (q : ℚ) (d : ℕ) : String :=
  if d = 0 then
    ⟨(if q < 0 then ['-'] else []) ++
      (Nat.repr ((roundHalfEven (q * 10 ^ d)).natAbs / 10 ^ d)).data⟩
  else
    ⟨(if q < 0 then ['-'] else []) ++
      (Nat.repr ((roundHalfEven (q * 10 ^ d)).natAbs / 10 ^ d)).data ++
      '.' :: padDigits ((roundHalfEven (q * 10 ^ d)).natAbs % 10 ^ d) d⟩

/-- `get_formatted_value`: format the position with `get_decimal_places`
fractional digits. -/
def get_formatted_value (c : ScalePrecisionCalculator) (position : ℚ) : String :=
  format_fixed position (get_decimal_places c position).toNat

/-- The number of characters after the last dot of a string. -/
def fracDigitCount (s : String) : ℕ :=
  (s.data.reverse.takeWhile (fun c => c != '.')).length

/-- `create_c_scale_calculator`: the standard C scale configuration. -/
def create_c_scale_calculator : ScalePrecisionCalculator :=
  ScalePrecisionCalculator.init
    { beginscale := 1
      endscale := 10
      xfactor := some 100
      subsections :=
        [ ⟨1, [some 1, some 0.1, some 0.05, some 0.01]⟩,
          ⟨2, [some 1, some 0.5, some 0.1, some 0.02]⟩,
          ⟨4, [some 1, some 0.5, some 0.1, some 0.05]⟩,
          ⟨10, [some 10, some 1, some 0.5, some 0.1]⟩,
          ⟨20, [some 10, some 5, some 1, some 0.2]⟩,
          ⟨40, [some 10, some 5, some 1, some 0.5]⟩ ] }

/-- `create_ll00_scale_calculator`: the fine-precision LL00 scale. -/
def create_ll00_scale_calculator : ScalePrecisionCalculator :=
  ScalePrecisionCalculator.init
    { beginscale := 0.990
      endscale := 0.999
      xfactor := some 100000
      subsections :=
        [ ⟨0.990, [some 0.001, some 0.0005, some 0.0001, some 0.00005]⟩,
          ⟨0.995, [some 0.001, some 0.0005, some 0.0001, some 0.00002]⟩,
          ⟨0.998, [some 0.0005, some 0.0001, some 0.00005, some 0.00001]⟩ ] }

/-- `create_k_scale_calculator`: the K (cube-root) scale. -/
def create_k_scale_calculator : ScalePrecisionCalculator :=
  ScalePrecisionCalculator.init
    { beginscale := 1
      endscale := 1000
      xfactor := some 100
      subsections :=
        [ ⟨1, [some 1, some 0.5, some 0.1, some 0.05]⟩,
          ⟨3, [some 1, none, some 0.5, some 0.1]⟩,
          ⟨6, [some 1, none, none, some 0.2]⟩,
          ⟨10, [some 10, some 5, some 1, some 0.5]⟩,
          ⟨30, [some 10, none, some 5, some 1]⟩,
          ⟨60, [some 10, none, none, some 2]⟩,
          ⟨100, [some 100, some 50, some 10, some 5]⟩,
          ⟨300, [some 100, none, some 50, some 10]⟩,
          ⟨600, [some 100, none, none, some 20]⟩,
          ⟨1000, [some 1000, some 500, some 100, some 50]⟩ ] }

/-- Strict comparison of subsections by `beginsub`. -/
def subLT (a b : Subsection) : Prop := a.beginsub < b.beginsub

instance : IsAntisymm Subsection subLT := ⟨fun _ _ h1 h2 => absurd h2 (lt_asymm h1)⟩

/-- The sub-range list of the left-continuity example in the spec:
`beginsub` values 1, 2, 4, 10 (the first four C-scale rows). -/
def exampleSubranges : List Subsection :=
  [ ⟨1, [some 1, some 0.1, some 0.05, some 0.01]⟩,
    ⟨2, [some 1, some 0.5, some 0.1, some 0.02]⟩,
    ⟨4, [some 1, some 0.5, some 0.1, some 0.05]⟩,
    ⟨10, [some 10, some 1, some 0.5, some 0.1]⟩ ]

/-- A calculator whose single subsection starts at 5 and has all four
interval tiers absent (a degenerate configuration). -/
def degenerate_calculator : ScalePrecisionCalculator :=
  { subsections := [⟨5, [none, none, none, none]⟩]
    beginscale := 0
    endscale := 10
    xfactor := 100 }

/-- A calculator with one subsection whose configured intervals are all
strictly positive. -/
def positive_calculator : ScalePrecisionCalculator :=
  { subsections := [⟨1, [some 1, some 0.5, some 0.1, some 0.05]⟩]
    beginscale := 1
    endscale := 10
    xfactor := 100 }

/-- A two-subsection scale definition, listed in ascending order. -/
def permuted_definition_a : ScaleDefinition :=
  { subsections :=
      [ ⟨1, [some 1, none, none, some 0.1]⟩,
        ⟨2, [some 1, none, none, some 0.2]⟩ ]
    beginscale := 1
    endscale := 10
    xfactor := some 100 }

/-- The same scale definition as `permuted_definition_a` with the
subsection list reversed. -/
def permuted_definition_b : ScaleDefinition :=
  { subsections :=
      [ ⟨2, [some 1, none, none, some 0.2]⟩,
        ⟨1, [some 1, none, none, some 0.1]⟩ ]
    beginscale := 1
    endscale := 10
    xfactor := some 100 }

/-! ## Helper lemmas -/

lemma int_log_eq {q : ℚ} {k : ℕ} (h1 : 1 / 10 ^ (k + 1) ≤ q) (h2 : q < 1 / 10 ^ k) :
    Int.log 10 q = -(k + 1 : ℤ) := by
  have h0 : 0 < q := lt_of_lt_of_le (by positivity) h1
  have hb : (1 : ℕ) < 10 := by norm_num
  have e1 : ((10 : ℕ) : ℚ) ^ (-(k + 1 : ℤ)) = 1 / 10 ^ (k + 1) := by
    rw [zpow_neg]
    push_cast
    rw [← zpow_natCast (10 : ℚ) (k + 1), one_div]
    norm_num
  have e2 : ((10 : ℕ) : ℚ) ^ (-(k + 1 : ℤ) + 1) = 1 / 10 ^ k := by
    have h : (-(k + 1 : ℤ) + 1) = -(k : ℤ) := by ring
    rw [h, zpow_neg]
    push_cast
    rw [← zpow_natCast (10 : ℚ) k, one_div]
  have hle : -(k + 1 : ℤ) ≤ Int.log 10 q :=
    (Int.zpow_le_iff_le_log hb h0).mp (e1 ▸ h1)
  have hlt : Int.log 10 q < -(k + 1 : ℤ) + 1 :=
    (Int.lt_zpow_iff_log_lt hb h0).mp (e2 ▸ h2)
  omega

lemma log_1_10 : Int.log 10 ((1 : ℚ) / 10) = -1 :=
  int_log_eq (k := 0) (by norm_num) (by norm_num)

lemma log_1_20 : Int.log 10 ((1 : ℚ) / 20) = -2 :=
  int_log_eq (k := 1) (by norm_num) (by norm_num)

lemma log_1_100 : Int.log 10 ((1 : ℚ) / 100) = -2 :=
  int_log_eq (k := 1) (by norm_num) (by norm_num)

lemma log_1_1000 : Int.log 10 ((1 : ℚ) / 1000) = -3 :=
  int_log_eq (k := 2) (by norm_num) (by norm_num)

lemma log_1_10000 : Int.log 10 ((1 : ℚ) / 10000) = -4 :=
  int_log_eq (k := 3) (by norm_num) (by norm_num)

lemma log_1_100000 : Int.log 10 ((1 : ℚ) / 100000) = -5 :=
  int_log_eq (k := 4) (by norm_num) (by norm_num)

lemma log_1_1000000 : Int.log 10 ((1 : ℚ) / 1000000) = -6 :=
  int_log_eq (k := 5) (by norm_num) (by norm_num)

lemma int_log_real_cast (q : ℚ) (h0 : 0 < q) : Int.log 10 ((q : ℝ)) = Int.log 10 q := by
  have h0' : (0 : ℝ) < (q : ℝ) := by exact_mod_cast h0
  have hb : (1 : ℕ) < 10 := by norm_num
  apply le_antisymm
  · rw [← Int.zpow_le_iff_le_log hb h0]
    have h := Int.zpow_log_le_self (b := 10) hb h0'
    have h2 : (((10 : ℚ) ^ Int.log 10 (q : ℝ) : ℚ) : ℝ) ≤ ((q : ℚ) : ℝ) := by
      push_cast
      exact_mod_cast h
    exact_mod_cast h2
  · rw [← Int.zpow_le_iff_le_log hb h0']
    have h := Int.zpow_log_le_self (b := 10) hb h0
    have h' : (10 : ℚ) ^ Int.log 10 q ≤ q := by exact_mod_cast h
    have e : (((10 : ℕ) : ℝ)) = (((10 : ℚ) : ℝ)) := by norm_num
    rw [e, ← Rat.cast_zpow]
    exact Rat.cast_le.mpr h'

lemma interval_to_decimal_places_mem (q : ℚ) :
    1 ≤ interval_to_decimal_places q ∧ interval_to_decimal_places q ≤ 5 := by
  rw [interval_to_decimal_places]
  split
  · omega
  · omega

lemma get_decimal_places_mem (c : ScalePrecisionCalculator) (position : ℚ) :
    1 ≤ get_decimal_places c position ∧ get_decimal_places c position ≤ 5 := by
  rw [get_decimal_places]
  split
  · omega
  · split
    · omega
    · split
      · omega
      · exact interval_to_decimal_places_mem _

lemma c_scale_subsections :
    create_c_scale_calculator.subsections =
      [ ⟨1, [some 1, some 0.1, some 0.05, some 0.01]⟩,
        ⟨2, [some 1, some 0.5, some 0.1, some 0.02]⟩,
        ⟨4, [some 1, some 0.5, some 0.1, some 0.05]⟩,
        ⟨10, [some 10, some 1, some 0.5, some 0.1]⟩,
        ⟨20, [some 10, some 5, some 1, some 0.2]⟩,
        ⟨40, [some 10, some 5, some 1, some 0.5]⟩ ] := by
  show List.insertionSort subLE _ = _
  apply List.Sorted.insertionSort_eq
  norm_num [List.sorted_cons, subLE]

lemma ll00_scale_subsections :
    create_ll00_scale_calculator.subsections =
      [ ⟨0.990, [some 0.001, some 0.0005, some 0.0001, some 0.00005]⟩,
        ⟨0.995, [some 0.001, some 0.0005, some 0.0001, some 0.00002]⟩,
        ⟨0.998, [some 0.0005, some 0.0001, some 0.00005, some 0.00001]⟩ ] := by
  show List.insertionSort subLE _ = _
  apply List.Sorted.insertionSort_eq
  norm_num [List.sorted_cons, subLE]

lemma c_scale_beginscale : create_c_scale_calculator.beginscale = 1 := rfl

lemma c_scale_endscale : create_c_scale_calculator.endscale = 10 := rfl

lemma ll00_scale_beginscale : create_ll00_scale_calculator.beginscale = 0.990 := rfl

lemma ll00_scale_endscale : create_ll00_scale_calculator.endscale = 0.999 := rfl

lemma dp_c_at_1 : get_decimal_places create_c_scale_calculator 1 = 3 := by
  rw [get_decimal_places, c_scale_subsections]
  norm_num [find_active_subsection, get_smallest_interval, firstSome,
    interval_to_decimal_places, log_1_100, c_scale_beginscale, c_scale_endscale]

lemma dp_c_at_5 : get_decimal_places create_c_scale_calculator 5 = 3 := by
  rw [get_decimal_places, c_scale_subsections]
  norm_num [find_active_subsection, get_smallest_interval, firstSome,
    interval_to_decimal_places, log_1_20, c_scale_beginscale, c_scale_endscale]

lemma dp_c_at_9 : get_decimal_places create_c_scale_calculator 9 = 3 := by
  rw [get_decimal_places, c_scale_subsections]
  norm_num [find_active_subsection, get_smallest_interval, firstSome,
    interval_to_decimal_places, log_1_20, c_scale_beginscale, c_scale_endscale]

lemma dp_c_at_50 : get_decimal_places create_c_scale_calculator 50 = 2 := by
  rw [get_decimal_places]
  norm_num [c_scale_beginscale, c_scale_endscale]

lemma dp_ll00_at_0999 : get_decimal_places create_ll00_scale_calculator 0.999 = 5 := by
  rw [get_decimal_places, ll00_scale_subsections]
  norm_num [find_active_subsection, get_smallest_interval, firstSome,
    interval_to_decimal_places, log_1_100000, ll00_scale_beginscale, ll00_scale_endscale]

lemma getLast?_cons_of_getLast? {α : Type} (a : α) {l : List α} {t : α}
    (h : l.getLast? = some t) : (a :: l).getLast? = some t := by
  cases l with
  | nil => simp at h
  | cons b m => rw [List.getLast?_cons_cons]; exact h

lemma find_active_eq_getLast? (subs : List Subsection) (pos : ℚ)
    (hs : List.Sorted subLE subs) :
    find_active_subsection subs pos =
      (subs.filter (fun s => decide (s.beginsub ≤ pos))).getLast? := by
  induction subs with
  | nil => rfl
  | cons s rest ih =>
    have hs' : List.Sorted subLE rest := hs.of_cons
    rw [find_active_subsection]
    by_cases h : s.beginsub ≤ pos
    · rw [if_pos h, List.filter_cons, if_pos (by simpa using h)]
      rw [ih hs']
      cases hl : (rest.filter (fun s => decide (s.beginsub ≤ pos))).getLast? with
      | none =>
        rw [List.getLast?_eq_none_iff.mp hl]
        simp
      | some t =>
        rw [getLast?_cons_of_getLast? s hl]
    · rw [if_neg h]
      have hall : ∀ b ∈ rest, ¬(b.beginsub ≤ pos) := by
        intro b hb hc
        exact h (le_trans ((List.sorted_cons.mp hs).1 b hb) hc)
      rw [List.filter_cons, if_neg (by simpa using h)]
      rw [List.filter_eq_nil_iff.mpr (by intro a ha; simpa using hall a ha)]
      rfl

lemma find_active_eq_none (subs : List Subsection) (pos : ℚ)
    (h : ∀ s ∈ subs, pos < s.beginsub) :
    find_active_subsection subs pos = none := by
  cases subs with
  | nil => rfl
  | cons s rest =>
    rw [find_active_subsection,
      if_neg (not_le.mpr (h s (List.mem_cons_self s rest)))]

lemma firstSome_eq_none {l : List (Option ℚ)} (h : ∀ o ∈ l, o = none) :
    firstSome l = none := by
  induction l with
  | nil => rfl
  | cons o t ih =>
    have ho : o = none := h o (List.mem_cons_self o t)
    subst ho
    exact ih (fun o ho => h o (List.mem_cons_of_mem _ ho))

lemma get_smallest_interval_eq_none (s : Subsection)
    (h : ∀ o ∈ s.intervals, o = none) : get_smallest_interval s = none := by
  rw [get_smallest_interval]
  exact firstSome_eq_none (fun o ho => h o (List.mem_reverse.mp ho))

lemma firstSome_reverse (l : List (Option ℚ)) :
    firstSome l.reverse = (l.filterMap id).getLast? := by
  induction l using List.reverseRecOn with
  | nil => rfl
  | append_singleton init o ih =>
    cases o with
    | none =>
      rw [List.reverse_append, List.filterMap_append]
      simpa [firstSome] using ih
    | some v =>
      rw [List.reverse_append, List.filterMap_append]
      simp [firstSome, List.getLast?_concat]

/-! ## Lemmas about the modelled formatter -/

lemma padDigits_length (n d : ℕ) : (padDigits n d).length = d := by
  induction d generalizing n with
  | zero => rfl
  | succ d ih => simp [padDigits, ih]

lemma digitChar_ne_dot (n : ℕ) : digitChar n ≠ '.' := by
  rw [digitChar]
  split <;> decide

lemma padDigits_ne_dot (n d : ℕ) : ∀ c ∈ padDigits n d, c ≠ '.' := by
  induction d generalizing n with
  | zero => intro c hc; simp [padDigits] at hc
  | succ d ih =>
    intro c hc
    rw [padDigits] at hc
    rcases List.mem_append.mp hc with h | h
    · exact ih _ c h
    · rw [List.mem_singleton.mp h]
      exact digitChar_ne_dot n

lemma takeWhile_until_dot (xs ys : List Char) (h : ∀ c ∈ xs, c ≠ '.') :
    (xs ++ '.' :: ys).takeWhile (fun c => c != '.') = xs := by
  induction xs with
  | nil => simp [List.takeWhile_cons]
  | cons a t ih =>
    rw [List.cons_append, List.takeWhile_cons]
    have ha : a ≠ '.' := h a (List.mem_cons_self _ _)
    simp only [bne_iff_ne, ne_eq, ha, not_false_eq_true, if_true]
    rw [ih (fun c hc => h c (List.mem_cons_of_mem _ hc))]

lemma fracDigitCount_mk (xs pad : List Char) (h : ∀ c ∈ pad, c ≠ '.') :
    fracDigitCount ⟨xs ++ '.' :: pad⟩ = pad.length := by
  rw [fracDigitCount]
  show ((xs ++ '.' :: pad).reverse.takeWhile (fun c => c != '.')).length = _
  rw [List.reverse_append, List.reverse_cons, List.append_assoc,
    List.singleton_append]
  rw [takeWhile_until_dot _ _ (fun c hc => h c (List.mem_reverse.mp hc))]
  exact List.length_reverse _

lemma fracDigitCount_format (q : ℚ) (d : ℕ) (hd : d ≠ 0) :
    fracDigitCount (format_fixed q d) = d := by
  rw [format_fixed, if_neg hd]
  rw [fracDigitCount_mk _ _ (padDigits_ne_dot _ _)]
  exact padDigits_length _ _

/-! ## Sorting lemmas for permutation invariance -/

lemma sorted_strict (l : List Subsection) (hs : List.Sorted subLE l)
    (hn : (l.map Subsection.beginsub).Nodup) : List.Sorted subLT l := by
  have hp : l.Pairwise (fun a b => a.beginsub ≠ b.beginsub) := List.pairwise_map.mp hn
  exact (List.Pairwise.and hs hp).imp (fun h => lt_of_le_of_ne h.1 h.2)

lemma insertionSort_eq_of_perm (l1 l2 : List Subsection) (hperm : l1.Perm l2)
    (hnodup : (l1.map Subsection.beginsub).Nodup) :
    List.insertionSort subLE l1 = List.insertionSort subLE l2 := by
  have p1 := List.perm_insertionSort subLE l1
  have p2 := List.perm_insertionSort subLE l2
  have hp : (List.insertionSort subLE l1).Perm (List.insertionSort subLE l2) :=
    p1.trans (hperm.trans p2.symm)
  have n1 : ((List.insertionSort subLE l1).map Subsection.beginsub).Nodup :=
    ((p1.map Subsection.beginsub).nodup_iff).mpr hnodup
  have n2 : ((List.insertionSort subLE l2).map Subsection.beginsub).Nodup :=
    ((hp.map Subsection.beginsub).nodup_iff).mp n1
  exact List.eq_of_perm_of_sorted (r := subLT) hp
    (sorted_strict _ (List.sorted_insertionSort subLE l1) n1)
    (sorted_strict _ (List.sorted_insertionSort subLE l2) n2)

lemma exampleSubranges_sorted : List.Sorted subLE exampleSubranges := by
  norm_num [exampleSubranges, List.sorted_cons, subLE]

lemma all_none_intervals : ∀ o ∈ ([none, none, none, none] : List (Option ℚ)), o = none := by
  simp

lemma positive_calculator_pos :
    ∀ s ∈ positive_calculator.subsections, ∀ o ∈ s.intervals, ∀ v, o = some v → 0 < v := by
  intro s hs o ho v hv
  have hs' : s = ⟨1, [some 1, some 0.5, some 0.1, some 0.05]⟩ := List.mem_singleton.mp hs
  subst hs'
  simp only [List.mem_cons, List.not_mem_nil, or_false] at ho
  rcases ho with h | h | h | h <;> subst h <;>
    (injection hv with h2; rw [← h2]; norm_num)

lemma permuted_subsections_perm :
    permuted_definition_a.subsections.Perm permuted_definition_b.subsections :=
  List.Perm.swap _ _ _

lemma permuted_subsections_nodup :
    (permuted_definition_a.subsections.map Subsection.beginsub).Nodup := by
  norm_num [permuted_definition_a, List.nodup_cons]

/-! ## Claim theorems -/

/-- C1: the interval-to-decimal-places conversion returns 1 for every
interval ≥ 1; and for every interval with 0 < interval < 1 it returns
`min (max (-⌊log10 interval⌋ + 1) 1) 5` — one digit more than the
magnitude of the interval, clamped to `[1, 5]`. -/
theorem interval_conversion_formula (q : ℚ) :
    (1 ≤ q → interval_to_decimal_places q = 1) ∧
    (0 < q → q < 1 →
      interval_to_decimal_places q =
        min (max (-⌊Real.logb 10 (q : ℝ)⌋ + 1) 1) 5) := by
  constructor
  · intro h
    rw [interval_to_decimal_places, if_pos h]
  · intro h0 h1
    rw [interval_to_decimal_places, if_neg (not_le.mpr h1)]
    have h10 : ((10 : ℕ) : ℝ) = (10 : ℝ) := by norm_num
    rw [show ⌊Real.logb 10 (q : ℝ)⌋ = Int.log 10 q from by
      rw [← h10, Real.floor_logb_natCast (by exact_mod_cast h0.le),
        int_log_real_cast q h0]]

/-- Witness for C1 at interval 2 (the ≥ 1 branch) and at interval 1/2
(the 0 < interval < 1 branch). -/
theorem interval_conversion_formula_witness :
    ((1 : ℚ) ≤ 2 ∧ interval_to_decimal_places 2 = 1) ∧
    (0 < (1/2 : ℚ) ∧ (1/2 : ℚ) < 1 ∧
      interval_to_decimal_places (1/2) =
        min (max (-⌊Real.logb 10 ((1/2 : ℚ) : ℝ)⌋ + 1) 1) 5) :=
  ⟨⟨by norm_num, (interval_conversion_formula 2).1 (by norm_num)⟩,
   ⟨by norm_num, by norm_num,
    (interval_conversion_formula (1/2)).2 (by norm_num) (by norm_num)⟩⟩

/-- C2 counterexample: on the standard C scale the claimed quadruple of
values (3 at 1.0, 2 at 5.0, 2 at 9.0, 1 at 50.0) is false: at position
5.0 the code yields 3 (finest interval 0.05, `-⌊log10 0.05⌋ + 1 = 3`),
not 2. -/
theorem c_scale_scenarios_counterexample :
    ¬(get_decimal_places create_c_scale_calculator 1 = 3 ∧
      get_decimal_places create_c_scale_calculator 5 = 2 ∧
      get_decimal_places create_c_scale_calculator 9 = 2 ∧
      get_decimal_places create_c_scale_calculator 50 = 1) := by
  intro h
  have h5 := h.2.1
  rw [dp_c_at_5] at h5
  exact absurd h5 (by norm_num)

/-- C2 (amended): on the standard C scale `decimalPlaces` returns 3 at
position 1.0, 3 at position 5.0, 3 at position 9.0, and 2 at position
50.0 (which exceeds `endscale = 10`, so the out-of-bounds default
applies). -/
theorem c_scale_scenarios :
    get_decimal_places create_c_scale_calculator 1 = 3 ∧
    get_decimal_places create_c_scale_calculator 5 = 3 ∧
    get_decimal_places create_c_scale_calculator 9 = 3 ∧
    get_decimal_places create_c_scale_calculator 50 = 2 :=
  ⟨dp_c_at_1, dp_c_at_5, dp_c_at_9, dp_c_at_50⟩

/-- C3: on a `beginsub`-ascending-sorted list, the active subsection is
the last entry whose `beginsub ≤ position`; with `beginsub` values
[1, 2, 4, 10], position 1.999 selects `beginsub = 1`, position 2.0
selects `beginsub = 2`, and position 3.999 selects `beginsub = 2`. -/
theorem active_subsection_is_last_qualifying :
    (∀ (subs : List Subsection) (pos : ℚ), List.Sorted subLE subs →
        find_active_subsection subs pos =
          (subs.filter (fun s => decide (s.beginsub ≤ pos))).getLast?) ∧
    (find_active_subsection exampleSubranges 1.999).map Subsection.beginsub = some 1 ∧
    (find_active_subsection exampleSubranges 2).map Subsection.beginsub = some 2 ∧
    (find_active_subsection exampleSubranges 3.999).map Subsection.beginsub = some 2 := by
  refine ⟨find_active_eq_getLast?, ?_, ?_, ?_⟩ <;>
    norm_num [exampleSubranges, find_active_subsection]

/-- Witness for C3: the sortedness hypothesis holds for the example list,
and the characterization applies there at position 3. -/
theorem active_subsection_is_last_qualifying_witness :
    List.Sorted subLE exampleSubranges ∧
    find_active_subsection exampleSubranges 3 =
      (exampleSubranges.filter (fun s => decide (s.beginsub ≤ (3 : ℚ)))).getLast? :=
  ⟨exampleSubranges_sorted,
   active_subsection_is_last_qualifying.1 exampleSubranges 3 exampleSubranges_sorted⟩

/-- C4: every strictly positive interval converts to a value inside
[1, 5]; interval 0.000001 yields 5; and on the LL00 scale
`decimalPlaces(0.999) = 5` (raw 6 clamped to 5). -/
theorem conversion_clamped_to_range :
    (∀ q : ℚ, 0 < q →
      1 ≤ interval_to_decimal_places q ∧ interval_to_decimal_places q ≤ 5) ∧
    interval_to_decimal_places 0.000001 = 5 ∧
    get_decimal_places create_ll00_scale_calculator 0.999 = 5 := by
  refine ⟨fun q _ => interval_to_decimal_places_mem q, ?_, dp_ll00_at_0999⟩
  rw [interval_to_decimal_places, if_neg (by norm_num)]
  norm_num [log_1_1000000]

/-- Witness for C4 at interval 1/2. -/
theorem conversion_clamped_to_range_witness :
    0 < (1/2 : ℚ) ∧
    1 ≤ interval_to_decimal_places (1/2) ∧ interval_to_decimal_places (1/2) ≤ 5 :=
  ⟨by norm_num, (conversion_clamped_to_range.1 (1/2) (by norm_num)).1,
   (conversion_clamped_to_range.1 (1/2) (by norm_num)).2⟩

/-- C5: on the decade intervals 0.1, 0.01, 0.001, 0.0001 the conversion
yields exactly 2, 3, 4, 5. -/
theorem decade_interval_monotonicity :
    interval_to_decimal_places 0.1 = 2 ∧
    interval_to_decimal_places 0.01 = 3 ∧
    interval_to_decimal_places 0.001 = 4 ∧
    interval_to_decimal_places 0.0001 = 5 := by
  refine ⟨?_, ?_, ?_, ?_⟩ <;>
    (rw [interval_to_decimal_places, if_neg (by norm_num)];
     norm_num [log_1_10, log_1_100, log_1_1000, log_1_10000])

/-- C6: finest-interval extraction returns the last non-absent entry of
the intervals sequence (the first non-absent one scanning from the end);
[1, None, None, 0.2] yields 0.2, [1, None, 0.5, 0.1] yields 0.1, and an
all-absent sequence yields nothing. -/
theorem smallest_interval_backward_scan :
    (∀ s : Subsection,
        get_smallest_interval s = (s.intervals.filterMap id).getLast?) ∧
    get_smallest_interval ⟨6, [some 1, none, none, some 0.2]⟩ = some 0.2 ∧
    get_smallest_interval ⟨3, [some 1, none, some 0.5, some 0.1]⟩ = some 0.1 ∧
    (∀ s : Subsection, (∀ o ∈ s.intervals, o = none) →
        get_smallest_interval s = none) :=
  ⟨fun s => firstSome_reverse s.intervals, rfl, rfl,
   fun s h => get_smallest_interval_eq_none s h⟩

/-- Witness for C6: the all-absent hypothesis holds for a subsection with
four `none` tiers, and extraction returns nothing there. -/
theorem smallest_interval_backward_scan_witness :
    (∀ o ∈ ([none, none, none, none] : List (Option ℚ)), o = none) ∧
    get_smallest_interval ⟨0, [none, none, none, none]⟩ = none :=
  ⟨all_none_intervals,
   smallest_interval_backward_scan.2.2.2 ⟨0, [none, none, none, none]⟩ all_none_intervals⟩

/-- C7: `get_decimal_places` is total and returns the default 2 in every
degenerate case: out-of-bounds position, in-bounds position preceding
every `beginsub`, and an active subsection with all interval tiers
absent. -/
theorem decimal_places_safe_defaults (c : ScalePrecisionCalculator) (position : ℚ) :
    (position < c.beginscale ∨ c.endscale < position →
      get_decimal_places c position = 2) ∧
    (c.beginscale ≤ position → position ≤ c.endscale →
      (∀ s ∈ c.subsections, position < s.beginsub) →
      get_decimal_places c position = 2) ∧
    (c.beginscale ≤ position → position ≤ c.endscale →
      ∀ a, find_active_subsection c.subsections position = some a →
        (∀ o ∈ a.intervals, o = none) →
        get_decimal_places c position = 2) := by
  refine ⟨?_, ?_, ?_⟩
  · intro h
    rw [get_decimal_places, if_pos h]
  · intro hb he hall
    rw [get_decimal_places,
      if_neg (not_or.mpr ⟨not_lt.mpr hb, not_lt.mpr he⟩),
      find_active_eq_none _ _ hall]
  · intro hb he a hfa hnone
    rw [get_decimal_places,
      if_neg (not_or.mpr ⟨not_lt.mpr hb, not_lt.mpr he⟩), hfa]
    show (match get_smallest_interval a with
      | none => 2
      | some smallest_interval => interval_to_decimal_places smallest_interval) = (2 : ℤ)
    rw [get_smallest_interval_eq_none a hnone]

/-- Witness for C7 on the degenerate calculator: position 20 is out of
bounds, position 2 precedes the only `beginsub`, and position 6 hits the
all-absent subsection; each yields 2. -/
theorem decimal_places_safe_defaults_witness :
    get_decimal_places degenerate_calculator 20 = 2 ∧
    get_decimal_places degenerate_calculator 2 = 2 ∧
    get_decimal_places degenerate_calculator 6 = 2 :=
  ⟨(decimal_places_safe_defaults degenerate_calculator 20).1
      (Or.inr (by norm_num [degenerate_calculator])),
   (decimal_places_safe_defaults degenerate_calculator 2).2.1
      (by norm_num [degenerate_calculator]) (by norm_num [degenerate_calculator])
      (by intro s hs
          rw [show degenerate_calculator.subsections = [⟨5, [none, none, none, none]⟩] from rfl,
            List.mem_singleton] at hs
          subst hs
          norm_num),
   (decimal_places_safe_defaults degenerate_calculator 6).2.2
      (by norm_num [degenerate_calculator]) (by norm_num [degenerate_calculator])
      ⟨5, [none, none, none, none]⟩
      (by norm_num [degenerate_calculator, find_active_subsection])
      (by simp)⟩

/-- C8: `formattedValue` is the standard fixed-point formatting of the
position with exactly `decimalPlaces(position)` fractional digits (the
formatter itself is modelled from the spec, the host facility not being
part of the repository). -/
theorem formatted_value_composition (c : ScalePrecisionCalculator) (position : ℚ) :
    get_formatted_value c position =
      format_fixed position (get_decimal_places c position).toNat ∧
    fracDigitCount (get_formatted_value c position) =
      (get_decimal_places c position).toNat := by
  refine ⟨rfl, ?_⟩
  have h := get_decimal_places_mem c position
  exact fracDigitCount_format _ _ (by omega)

/-- C9: for every calculator whose configured intervals are strictly
positive and every position, `get_decimal_places` lands in [1, 5]. -/
theorem decimal_places_always_in_range (c : ScalePrecisionCalculator) (position : ℚ)
    (_hpos : ∀ s ∈ c.subsections, ∀ o ∈ s.intervals, ∀ v, o = some v → 0 < v) :
    1 ≤ get_decimal_places c position ∧ get_decimal_places c position ≤ 5 :=
  get_decimal_places_mem c position

/-- Witness for C9 on a calculator with strictly positive intervals, at
position 5. -/
theorem decimal_places_always_in_range_witness :
    (∀ s ∈ positive_calculator.subsections, ∀ o ∈ s.intervals, ∀ v, o = some v → 0 < v) ∧
    1 ≤ get_decimal_places positive_calculator 5 ∧
    get_decimal_places positive_calculator 5 ≤ 5 :=
  ⟨positive_calculator_pos,
   (decimal_places_always_in_range positive_calculator 5 positive_calculator_pos).1,
   (decimal_places_always_in_range positive_calculator 5 positive_calculator_pos).2⟩

/-- C10: when the `beginsub` values are pairwise distinct,
`get_decimal_places` does not depend on the order in which the
subsections were listed in the definition, because the constructor sorts
them. -/
theorem subsection_order_invariance (sd1 sd2 : ScaleDefinition)
    (hperm : sd1.subsections.Perm sd2.subsections)
    (hb : sd1.beginscale = sd2.beginscale)
    (he : sd1.endscale = sd2.endscale)
    (hx : sd1.xfactor = sd2.xfactor)
    (hnodup : (sd1.subsections.map Subsection.beginsub).Nodup)
    (position : ℚ) :
    get_decimal_places (ScalePrecisionCalculator.init sd1) position =
      get_decimal_places (ScalePrecisionCalculator.init sd2) position := by
  have hinit : ScalePrecisionCalculator.init sd1 = ScalePrecisionCalculator.init sd2 := by
    rw [ScalePrecisionCalculator.init, ScalePrecisionCalculator.init]
    rw [insertionSort_eq_of_perm _ _ hperm hnodup, hb, he, hx]
  rw [hinit]

/-- Witness for C10 on a two-subsection definition listed in both orders,
queried at position 3. -/
theorem subsection_order_invariance_witness :
    permuted_definition_a.subsections.Perm permuted_definition_b.subsections ∧
    (permuted_definition_a.subsections.map Subsection.beginsub).Nodup ∧
    get_decimal_places (ScalePrecisionCalculator.init permuted_definition_a) 3 =
      get_decimal_places (ScalePrecisionCalculator.init permuted_definition_b) 3 :=
  ⟨permuted_subsections_perm, permuted_subsections_nodup,
   subsection_order_invariance permuted_definition_a permuted_definition_b
     permuted_subsections_perm rfl rfl rfl permuted_subsections_nodup 3⟩

end ScalePrecision
